import Mathlib

/-!
Shallow embedding of the crop-sequence-boundaries (CSB) pipeline core
(`csb-udl/CSB_Run`): the graduated polygon-elimination engine
(`src/eliminator.py`), the unit pipeline retry/repair logic
(`src/processor.py`, `gdb_v2.py`) and the partition scheduler
(`create_csb_v2.py`).  External ArcPy geoprocessing primitives are
modelled as oracles (arbitrary function parameters), so every theorem
quantifies over all possible collaborator behaviours.
-/

namespace CSB

/-- Albers coordinate system string from `constants.py`
(`ALBERS_COORDINATE_SYSTEM`). -/
def ALBERS_COORDINATE_SYSTEM : String :=
  "PROJCS[\"USA_Contiguous_Albers_Equal_Area_Conic_USGS_version\",GEOGCS[\"GCS_North_American_1983\",DATUM[\"D_North_American_1983\",SPHEROID[\"GRS_1980\",6378137.0,298.257222101]],PRIMEM[\"Greenwich\",0.0],UNIT[\"Degree\",0.0174532925199433]],PROJECTION[\"Albers\"],PARAMETER[\"False_Easting\",0.0],PARAMETER[\"False_Northing\",0.0],PARAMETER[\"Central_Meridian\",-96.0],PARAMETER[\"Standard_Parallel_1\",29.5],PARAMETER[\"Standard_Parallel_2\",45.5],PARAMETER[\"Latitude_Of_Origin\",23.0],UNIT[\"Meter\",1.0]]"

/-- Elimination coordinate system string from `constants.py`
(`ELIMINATION_COORDINATE_SYSTEM`). -/
def ELIMINATION_COORDINATE_SYSTEM : String :=
  "PROJCS[\"Albers_Conic_Equal_Area\",GEOGCS[\"GCS_North_American_1983\",DATUM[\"D_North_American_1983\",SPHEROID[\"GRS_1980\",6378137.0,298.257222101]],PRIMEM[\"Greenwich\",0.0],UNIT[\"Degree\",0.0174532925199433]],PROJECTION[\"Albers\"],PARAMETER[\"false_easting\",0.0],PARAMETER[\"false_northing\",0.0],PARAMETER[\"central_meridian\",-96.0],PARAMETER[\"standard_parallel_1\",29.5],PARAMETER[\"standard_parallel_2\",45.5],PARAMETER[\"latitude_of_origin\",23.0],UNIT[\"Meter\",1.0]]"

/-- Default elimination thresholds from `constants.py`
(`DEFAULT_ELIMINATION_AREAS`), square meters. -/
def DEFAULT_ELIMINATION_AREAS : List Nat :=
  [1000, 1900, 2800, 3700, 4600, 5500, 6500, 8100]

/-- Configuration for polygon elimination, mirroring the dataclass
`EliminationConfig` in `eliminator.py` (paths and the coordinate system
as strings; `retry_delay` carried as an abstract numeric value since it
only feeds `time.sleep`). -/
structure EliminationConfig where
  input_layers : String
  workspace : String
  scratch : String
  area : String
  coordinate_system : String
  elimination_areas : List Nat
  max_retries : Nat
  retry_delay : Nat
  deriving Repr, DecidableEq

/-- Constructor of `EliminationConfig` including the `__post_init__`
validation: raises `ValueError` (modelled as `Except.error`) exactly when
the supplied coordinate system differs from
`ELIMINATION_COORDINATE_SYSTEM`. -/
def mkEliminationConfig (inputLayers workspace scratch area cs : String)
    (areas : List Nat) (maxRetries retryDelay : Nat) :
    Except String EliminationConfig :=
  if cs = ELIMINATION_COORDINATE_SYSTEM then
    .ok ⟨inputLayers, workspace, scratch, area, cs, areas, maxRetries, retryDelay⟩
  else
    .error "Invalid coordinate system for elimination. Must use ELIMINATION_COORDINATE_SYSTEM"

/-- Boolean success test for `Except` results. -/
def exceptIsOk {ε α : Type} : Except ε α → Bool
  | .ok _ => true
  | .error _ => false

/-- A vector polygon, identified for the elimination logic by its
`Shape_Area` attribute value (square meters, modelled as `Nat`). -/
structure Polygon where
  shapeArea : Nat
  deriving Repr, DecidableEq

/-- Attribute where-clauses as built by `_eliminate_iteration`: the code
only ever constructs `Shape_Area <= {shape_area}`. -/
inductive WhereClause where
  | le (field : String) (bound : Nat)
  deriving Repr, DecidableEq

/-- Attribute lookup on a polygon; `Shape_Area` is the only attribute the
elimination logic reads. -/
def Polygon.attr (p : Polygon) (field : String) : Nat :=
  if field = "Shape_Area" then p.shapeArea else 0

/-- Evaluate a where-clause against one polygon. -/
def evalWhere (w : WhereClause) (p : Polygon) : Bool :=
  match w with
  | .le field bound => p.attr field ≤ bound

/-- The clause `f"Shape_Area <= {shape_area}"` from `eliminator.py` line
170. -/
def selectionClause (shapeArea : Nat) : WhereClause :=
  .le "Shape_Area" shapeArea

/-- `arcpy.management.SelectLayerByAttribute` with `NEW_SELECTION`: the
selection on a layer is the sublist of polygons satisfying the clause. -/
def selectLayerByAttribute (layer : List Polygon) (w : WhereClause) : List Polygon :=
  layer.filter (evalWhere w)

/-- `arcpy.management.GetCount` on a selection. -/
def getCount (selection : List Polygon) : Nat :=
  selection.length

/-- The `arcpy.management.Eliminate` collaborator, fully abstract: given
the iteration number, the current layer and the current selection it
produces the merged output layer.  Quantifying over all such functions
covers every (including adversarial) collaborator behaviour. -/
abbrev ElimOracle := Nat → List Polygon → List Polygon → List Polygon

/-- Exit test of the `while True` loop in `_eliminate_iteration`
(`eliminator.py` line 174): `poly_count == 0 or poly_count >=
previous_poly_count`, where `previous_poly_count` starts at `math.inf`
(modelled by `none`, which no finite count can reach). -/
def stallBreak (polyCount : Nat) (prev : Option Nat) : Bool :=
  polyCount == 0 ||
    (match prev with
     | some p => decide (p ≤ polyCount)
     | none => false)

/-- Loop body of `PolygonEliminator._eliminate_iteration`
(`eliminator.py` lines 158-192), with explicit fuel.  State: the Python
`iteration` counter, `previous_poly_count` (`none` models the initial
`math.inf`) and the current layer.  Each pass selects
`Shape_Area <= shape_area`, counts, breaks when the count is zero or has
not strictly decreased (returning the current layer unchanged), and
otherwise eliminates the selection into a new layer and records the
count as the new previous count. -/
def eliminateIterationGo (elim : ElimOracle) (shapeArea : Nat) :
    Nat → Nat → Option Nat → List Polygon → Option (List Polygon)
  | 0, _, _, _ => none
  | fuel + 1, iteration, prev, layer =>
    let polys := selectLayerByAttribute layer (selectionClause shapeArea)
    let polyCount := getCount polys
    if stallBreak polyCount prev then
      some layer
    else
      eliminateIterationGo elim shapeArea fuel (iteration + 1) (some polyCount)
        (elim (iteration + 1) layer polys)

/-- `_eliminate_iteration` for one threshold: the loop starts at
iteration 0 (incremented to 1 on entry) with `previous_poly_count`
infinite; the fuel `initial selected count + 2` is sufficient for every
oracle (proved below). -/
def eliminateIteration (elim : ElimOracle) (shapeArea : Nat)
    (layer : List Polygon) : Option (List Polygon) :=
  eliminateIterationGo elim shapeArea
    (getCount (selectLayerByAttribute layer (selectionClause shapeArea)) + 2)
    0 none layer

/-- Retry loop of `PolygonEliminator._process_elimination`
(`eliminator.py` lines 127-142).  The oracle gives each attempt's
outcome: `.ok name` when `_eliminate_iteration` returns a layer name,
`.error msg` when it raises.  `rem` is `max_retries - retry_count`, `i`
the number of attempts already made.  On exhaustion the loop logs and
returns `None` (no exception); result also carries the number of
attempts performed.  The `rem = 0` base is reached only when
`max_retries = 0`, where the Python `while` is skipped and the function
falls through returning `None` after zero attempts. -/
def processEliminationGo (att : Nat → Except String String) :
    Nat → Nat → Option String × Nat
  | 0, i => (none, i)
  | rem + 1, i =>
    match att i with
    | .ok name => (some name, i + 1)
    | .error _ =>
      if rem = 0 then (none, i + 1)
      else processEliminationGo att rem (i + 1)

/-- `_process_elimination` with a fresh retry counter. -/
def processElimination (att : Nat → Except String String) (maxRetries : Nat) :
    Option String × Nat :=
  processEliminationGo att maxRetries 0

/-- Log events emitted by `_process_layers` while looping over the
threshold sizes: the per-size debug line and the warning emitted when a
size is skipped after a processing error. -/
inductive LayerEvent where
  | sizeStart (size : Nat)
  | skipWarning (size : Nat)
  deriving Repr, DecidableEq

/-- One pass of the `for size in self.config.elimination_areas` loop in
`_process_layers` (`eliminator.py` lines 86-92): log the size, run
`_process_elimination`; on success replace `last_iteration_name`, on
failure log the skip warning and keep the current name.  The attempt
oracle is indexed by size and attempt number. -/
def processSizeStep (att : Nat → Nat → Except String String) (maxRetries : Nat)
    (st : String × List LayerEvent) (size : Nat) : String × List LayerEvent :=
  let evs := st.2 ++ [LayerEvent.sizeStart size]
  match (processElimination (att size) maxRetries).1 with
  | some name => (name, evs)
  | none => (st.1, evs ++ [LayerEvent.skipWarning size])

/-- The threshold loop of `_process_layers` for one feature layer,
starting from `last_iteration_name = layer_name`. -/
def processLayerSizes (att : Nat → Nat → Except String String)
    (maxRetries : Nat) (layerName : String) (sizes : List Nat) :
    String × List LayerEvent :=
  sizes.foldl (processSizeStep att maxRetries) (layerName, [])

/-- `PolygonEliminator._process_layers` (`eliminator.py` lines 76-92):
raises `ProcessingError` when no feature layers are found, otherwise
runs the threshold loop on every layer; per-size failures never raise. -/
def processLayers (att : Nat → Nat → Except String String) (maxRetries : Nat)
    (featureLayers : List String) (sizes : List Nat) :
    Except String (List (String × List LayerEvent)) :=
  if featureLayers.isEmpty then
    .error "No feature layers found"
  else
    .ok (featureLayers.map fun layerName =>
      processLayerSizes att maxRetries layerName sizes)

/-- Sizes actually visited, in order, by the `_process_layers` threshold
loop, recovered from its event log. -/
def sizesVisited (evs : List LayerEvent) : List Nat :=
  evs.filterMap fun e =>
    match e with
    | .sizeStart s => some s
    | .skipWarning _ => none

/-- Retry loop of `PolygonEliminator.eliminate` (`eliminator.py` lines
42-74).  `ok i` tells whether attempt `i` (0-based) of
`_process_layers` succeeds.  `.ok n` means the method returned after `n`
attempts; `.error m` models the final `raise ProcessingError` after `m`
attempts.  The `rem = 0` base models `max_retries = 0`, where the
`while` guard is immediately false and the method returns without any
attempt. -/
def eliminateRetryGo (ok : Nat → Bool) : Nat → Nat → Except Nat Nat
  | 0, i => .ok i
  | rem + 1, i =>
    if ok i then .ok (i + 1)
    else if rem = 0 then .error (i + 1)
    else eliminateRetryGo ok rem (i + 1)

/-- `PolygonEliminator.eliminate` with a fresh retry counter. -/
def eliminateRetry (ok : Nat → Bool) (maxRetries : Nat) : Except Nat Nat :=
  eliminateRetryGo ok maxRetries 0

/-- Retry loop of `CSBProcessor._add_count_field` (`processor.py` lines
116-126): `while attempt_count < max_attempts` call `add_field`; break
on success, else increment; afterwards `attempt_count == max_attempts`
raises.  `.ok n` is success after `n` calls, `.error m` the raise after
`m` calls. -/
def addCountFieldGo (ok : Nat → Bool) : Nat → Nat → Except Nat Nat
  | 0, i => .error i
  | rem + 1, i =>
    if ok i then .ok (i + 1)
    else addCountFieldGo ok rem (i + 1)

/-- `_add_count_field`'s bounded retry (the code fixes
`max_attempts = 5`). -/
def addCountField (ok : Nat → Bool) (maxAttempts : Nat) : Except Nat Nat :=
  addCountFieldGo ok maxAttempts 0

/-- Python `str.split("_")` on the character list (structural recursion;
`cur` accumulates the current piece reversed). -/
def splitUnderscoreAux : List Char → List Char → List (List Char)
  | [], cur => [cur.reverse]
  | c :: rest, cur =>
    if c = '_' then cur.reverse :: splitUnderscoreAux rest []
    else splitUnderscoreAux rest (c :: cur)

/-- Python `"_".join(pieces)`. -/
def joinUnderscore : List String → String
  | [] => ""
  | [s] => s
  | s :: rest => s ++ "_" ++ joinUnderscore rest

/-- Sub-area key extraction in `repair_topology` (`gdb_v2.py` line 135):
`"_".join(fc.split("_")[:2])`. -/
def subAreaKey (fc : String) : String :=
  joinUnderscore (((splitUnderscoreAux fc.toList []).take 2).map String.mk)

/-- One `area_counts[area_name] = area_counts.get(area_name, 0) + 1`
update on an insertion-ordered association list (Python dicts preserve
first-insertion order). -/
def bumpCount : List (String × Nat) → String → List (String × Nat)
  | [], key => [(key, 1)]
  | (k, n) :: rest, key =>
    if k = key then (k, n + 1) :: rest
    else (k, n) :: bumpCount rest key

/-- The `area_counts` dictionary built by `repair_topology` over the
scratch workspace's feature classes. -/
def buildAreaCounts (fcs : List String) : List (String × Nat) :=
  fcs.foldl (fun counts fc => bumpCount counts (subAreaKey fc)) []

/-- `min(area_counts.items(), key=lambda x: x[1])`: first pair attaining
the minimal count, in dictionary (first-insertion) order. -/
def minByCount : List (String × Nat) → Option (String × Nat)
  | [] => none
  | x :: xs => some (xs.foldl (fun best y => if y.2 < best.2 then y else best) x)

/-- `repair_topology` (`gdb_v2.py` lines 118-144): given the feature
classes listed in the scratch workspace, return the target of the
`RepairGeometry` call (`f"{in_gdb}/{repair_area}_In"`), or `none` when
the scratch listing is empty (early return, no repair call). -/
def repairTopology (inGdb : String) (tempFcs : List String) : Option String :=
  if tempFcs.isEmpty then none
  else
    (minByCount (buildAreaCounts tempFcs)).map fun p =>
      inGdb ++ "/" ++ p.1 ++ "_In"

/-- Observable actions of `CSBProcessor._eliminate_polygons`: each
elimination attempt records the input geodatabase the eliminator is
pointed at (always `vectors.parent.parent`), and each issued
`RepairGeometry` call records its target feature. -/
inductive PipelineEvent where
  | attempt (i : Nat) (inputGdb : String)
  | repairCall (target : String)
  deriving Repr, DecidableEq

/-- Retry-with-repair loop of `CSBProcessor._eliminate_polygons`
(`processor.py` lines 194-237).  `ok i` is attempt `i`'s outcome;
`scratchList i` the scratch workspace's feature classes observed after
attempt `i` fails.  On failure with retries remaining the loop calls
`repair_topology` (emitting a repair event when it issues a call) and
then re-runs elimination against the same initial input geodatabase;
exhaustion raises (`.error` carries the attempt count).  The `rem = 0`
base is only reachable with `max_retries = 0`, where the `while` guard
fails and the method returns without attempting. -/
def eliminatePolygonsGo (ok : Nat → Bool) (scratchList : Nat → List String)
    (inGdb : String) : Nat → Nat → List PipelineEvent × Except Nat Unit
  | 0, _ => ([], .ok ())
  | rem + 1, i =>
    if ok i then ([.attempt i inGdb], .ok ())
    else if rem = 0 then ([.attempt i inGdb], .error (i + 1))
    else
      let repairEvents :=
        match repairTopology inGdb (scratchList i) with
        | some target => [PipelineEvent.repairCall target]
        | none => []
      let rest := eliminatePolygonsGo ok scratchList inGdb rem (i + 1)
      (PipelineEvent.attempt i inGdb :: repairEvents ++ rest.1, rest.2)

/-- `_eliminate_polygons` with a fresh retry counter (the code fixes
`max_retries = 5`). -/
def eliminatePolygons (ok : Nat → Bool) (scratchList : Nat → List String)
    (inGdb : String) (maxRetries : Nat) : List PipelineEvent × Except Nat Unit :=
  eliminatePolygonsGo ok scratchList inGdb maxRetries 0

/-- Console output of the scheduler's drain loop in `process_areas`
(`create_csb_v2.py` lines 185-195): the per-completion result line (the
returned message on success, the `CSB sub-unit ... failed` line on
exception) followed by the `completed of total` progress line. -/
inductive SchedulerEvent where
  | resultLine (msg : String)
  | failureLine (area : String) (err : String)
  | progress (completed : Nat) (total : Nat)
  deriving Repr, DecidableEq

/-- Drain loop of `process_areas`: completions are handled one at a time
in completion order (the list order models the nondeterministic order in
which futures finish); an exception from one task is caught, reported,
and never aborts collection of the rest. -/
def drainGo (total : Nat) : Nat → List (String × Except String String) →
    List SchedulerEvent
  | _, [] => []
  | completed, (area, r) :: rest =>
    (match r with
     | .ok msg => SchedulerEvent.resultLine msg
     | .error e => SchedulerEvent.failureLine area e)
    :: SchedulerEvent.progress (completed + 1) total
    :: drainGo total (completed + 1) rest

/-- `process_areas` over a list of partition outcomes (area identity
paired with its pipeline's result), starting from `completed = 0`. -/
def processAreas (outcomes : List (String × Except String String)) :
    List SchedulerEvent :=
  drainGo outcomes.length 0 outcomes

/-- Projection of the progress lines from the scheduler's output. -/
def progressOf : SchedulerEvent → Option (Nat × Nat)
  | .progress c t => some (c, t)
  | _ => none

/-- `main` (`create_csb_v2.py` lines 225-251): any exception escaping
setup or dispatch is caught and converted into a returned error message;
`process_areas` itself swallows every per-partition failure, so when
setup succeeds `main` returns `None` regardless of the partitions'
outcomes.  The result pairs `main`'s return value with the scheduler
events produced. -/
def mainRun (setup : Except String (List (String × Except String String))) :
    Option String × List SchedulerEvent :=
  match setup with
  | .error e => (some ("CSB processing failed: " ++ e), [])
  | .ok outcomes => (none, processAreas outcomes)

/-- The `sys.exit(1 if main() else 0)` wiring (`create_csb_v2.py` line
255): exit 1 exactly when `main` returned a truthy (non-empty) string. -/
def exitCode (result : Option String) : Nat :=
  match result with
  | none => 0
  | some s => if s = "" then 0 else 1

/-- Semantics of `pathlib.Path.write_text`, used for every write to the
shared `log/overall_error.txt` (`processor.py` lines 82 and 229,
`create_csb_v2.py` line 88, `gdb_v2.py` lines 54 and 85): the file is
opened in write mode, so the new content is exactly the message written
and any previous content is discarded.  The file is modelled as the list
of whole messages it holds. -/
def writeText (contents : List String) (msg : String) : List String :=
  let _ := contents
  [msg]

/-- C10: constructing an `EliminationConfig` succeeds exactly when the
supplied coordinate system equals `ELIMINATION_COORDINATE_SYSTEM`,
independently of every other configuration field; any other coordinate
system raises `ValueError` at construction time, and a successfully
constructed configuration always carries the fixed elimination
coordinate system. -/
theorem c10_coordinate_system_validation
    (inputLayers workspace scratch area cs : String)
    (areas : List Nat) (maxRetries retryDelay : Nat) :
    ((∃ cfg, mkEliminationConfig inputLayers workspace scratch area cs areas
        maxRetries retryDelay = Except.ok cfg) ↔
      cs = ELIMINATION_COORDINATE_SYSTEM) ∧
    (∀ cfg, mkEliminationConfig inputLayers workspace scratch area cs areas
        maxRetries retryDelay = Except.ok cfg →
      cfg.coordinate_system = ELIMINATION_COORDINATE_SYSTEM) ∧
    (cs ≠ ELIMINATION_COORDINATE_SYSTEM →
      mkEliminationConfig inputLayers workspace scratch area cs areas
          maxRetries retryDelay =
        Except.error "Invalid coordinate system for elimination. Must use ELIMINATION_COORDINATE_SYSTEM") := by
  by_cases hcs : cs = ELIMINATION_COORDINATE_SYSTEM <;>
    simp [mkEliminationConfig, hcs]

set_option maxRecDepth 10000 in
/-- Witness for C10: construction with the elimination coordinate system
succeeds; with the Albers system it raises. -/
theorem c10_coordinate_system_validation_witness :
    (∃ cfg, mkEliminationConfig "il" "ws" "sc" "A1"
        ELIMINATION_COORDINATE_SYSTEM DEFAULT_ELIMINATION_AREAS 3 5 =
        Except.ok cfg) ∧
    mkEliminationConfig "il" "ws" "sc" "A1" ALBERS_COORDINATE_SYSTEM
        DEFAULT_ELIMINATION_AREAS 3 5 =
      Except.error "Invalid coordinate system for elimination. Must use ELIMINATION_COORDINATE_SYSTEM" :=
  ⟨(c10_coordinate_system_validation "il" "ws" "sc" "A1"
      ELIMINATION_COORDINATE_SYSTEM DEFAULT_ELIMINATION_AREAS 3 5).1.mpr rfl,
   (c10_coordinate_system_validation "il" "ws" "sc" "A1"
      ALBERS_COORDINATE_SYSTEM DEFAULT_ELIMINATION_AREAS 3 5).2.2 (by decide)⟩

/-- C9 (code bug): every write to the shared overall error log uses
`Path.write_text`, which truncates; at the failing input (a worker
records an error after another worker already recorded one) the earlier
message is no longer present, contradicting the claimed append
semantics.  The predecessor code in this repository
(`csb-project/CSB-Run`) opens the same log with `open(path, "a")`,
showing append was the intent. -/
theorem c9_error_log_overwrites :
    writeText ["Processing failed for area p1: topology error"]
        "Processing failed for area p2: field error" =
      ["Processing failed for area p2: field error"] ∧
    "Processing failed for area p1: topology error" ∉
      writeText ["Processing failed for area p1: topology error"]
        "Processing failed for area p2: field error" :=
  ⟨rfl, by decide⟩

/-- C4 counterexample: with a single partition whose pipeline fails, the
process exits 0, so the exit status is not equivalent to "at least one
partition failed". -/
theorem c4_counterexample :
    ¬ ((exitCode (mainRun (Except.ok
          [("p1", (Except.error "boom" : Except String String))])).1 ≠ 0) ↔
        ∃ pr ∈ [("p1", (Except.error "boom" : Except String String))],
          exceptIsOk pr.2 = false) := by
  intro h
  have hfail : ∃ pr ∈ [("p1", (Except.error "boom" : Except String String))],
      exceptIsOk pr.2 = false :=
    ⟨("p1", Except.error "boom"), by simp, rfl⟩
  exact h.mpr hfail rfl

/-- C4 amended: the exit status reflects only whether the scheduler's
own setup/dispatch raised: when setup succeeds, `main` returns `None`
and the process exits 0 regardless of the partitions' outcomes (every
per-partition failure having been caught inside `process_areas`); when
setup raises, the process exits 1. -/
theorem c4_exit_status (e : String)
    (outcomes : List (String × Except String String)) :
    (mainRun (Except.ok outcomes)).1 = none ∧
    exitCode (mainRun (Except.ok outcomes)).1 = 0 ∧
    exitCode (mainRun (Except.error e)).1 = 1 := by
  refine ⟨rfl, rfl, ?_⟩
  simp only [mainRun, exitCode]
  rw [if_neg]
  intro h
  have hlen := congrArg String.length h
  rw [String.length_append] at hlen
  simp at hlen
  exact absurd hlen.1 (by decide)

/-- Size projections distribute over appended event logs. -/
theorem sizesVisited_append (evs₁ evs₂ : List LayerEvent) :
    sizesVisited (evs₁ ++ evs₂) = sizesVisited evs₁ ++ sizesVisited evs₂ := by
  simp [sizesVisited, List.filterMap_append]

/-- The threshold loop visits exactly the configured sizes, in the given
order, no matter which attempts fail. -/
theorem sizesVisited_foldl (att : Nat → Nat → Except String String) (m : Nat) :
    ∀ (sizes : List Nat) (st : String × List LayerEvent),
      sizesVisited (sizes.foldl (processSizeStep att m) st).2 =
        sizesVisited st.2 ++ sizes := by
  intro sizes
  induction sizes with
  | nil => intro st; simp
  | cons s rest ih =>
    intro st
    rw [List.foldl_cons, ih]
    cases h : (processElimination (att s) m).1 <;>
      simp [processSizeStep, h, sizesVisited_append, sizesVisited]

set_option maxRecDepth 10000 in
/-- C5 counterexample: `EliminationConfig` accepts a non-increasing
threshold list (construction only validates the coordinate system), and
`_process_layers` then visits the thresholds exactly in the given,
unsorted order — the list is neither rejected nor reordered. -/
theorem c5_counterexample :
    exceptIsOk (mkEliminationConfig "il" "ws" "sc" "A1"
      ELIMINATION_COORDINATE_SYSTEM [2000, 1000] 3 5) = true ∧
    sizesVisited (processLayerSizes (fun _ _ => Except.ok "next") 3 "L"
      [2000, 1000]).2 = [2000, 1000] ∧
    ¬ List.Sorted (· < ·) [2000, 1000] := by
  refine ⟨rfl, rfl, by decide⟩

/-- C5 amended: the default threshold list is strictly increasing and
the engine processes whatever list it is given in that list's own order;
no reordering or rejection of unsorted lists takes place (construction
validates only the coordinate system). -/
theorem c5_threshold_order (inputLayers workspace scratch area : String)
    (areas : List Nat) (maxRetries retryDelay : Nat)
    (att : Nat → Nat → Except String String) (m : Nat) (layerName : String) :
    List.Sorted (· < ·) DEFAULT_ELIMINATION_AREAS ∧
    exceptIsOk (mkEliminationConfig inputLayers workspace scratch area
      ELIMINATION_COORDINATE_SYSTEM areas maxRetries retryDelay) = true ∧
    sizesVisited (processLayerSizes att m layerName areas).2 = areas := by
  refine ⟨by decide, ?_, ?_⟩
  · simp [mkEliminationConfig, exceptIsOk]
  · simpa [sizesVisited] using sizesVisited_foldl att m areas (layerName, [])

/-- A successful call after `k` failures makes the `_add_count_field`
loop return success after exactly `k + 1` calls, given enough budget. -/
theorem addCountFieldGo_succeeds (ok : Nat → Bool) :
    ∀ (k rem i : Nat), (∀ j, j < k → ok (i + j) = false) → ok (i + k) = true →
      k + 1 ≤ rem → addCountFieldGo ok rem i = .ok (i + k + 1) := by
  intro k
  induction k with
  | zero =>
    intro rem i _ hsucc hrem
    obtain ⟨r, rfl⟩ : ∃ r, rem = r + 1 := ⟨rem - 1, by omega⟩
    have h : ok i = true := by simpa using hsucc
    simp [addCountFieldGo, h]
  | succ k ih =>
    intro rem i hfail hsucc hrem
    obtain ⟨r, rfl⟩ : ∃ r, rem = r + 1 := ⟨rem - 1, by omega⟩
    have h0 : ok i = false := by simpa using hfail 0 (by omega)
    have hres := ih r (i + 1)
      (fun j hj => by
        have h := hfail (j + 1) (by omega)
        rwa [show i + (j + 1) = i + 1 + j by omega] at h)
      (by
        have h := hsucc
        rwa [show i + (k + 1) = i + 1 + k by omega] at h)
      (by omega)
    simp only [addCountFieldGo, h0, Bool.false_eq_true, if_false]
    rw [hres]
    congr 1
    omega

/-- Exhausting the `_add_count_field` budget raises after exactly the
budget's number of calls. -/
theorem addCountFieldGo_exhausts (ok : Nat → Bool) :
    ∀ (rem i : Nat), (∀ j, j < rem → ok (i + j) = false) →
      addCountFieldGo ok rem i = .error (i + rem) := by
  intro rem
  induction rem with
  | zero => intro i _; simp [addCountFieldGo]
  | succ r ih =>
    intro i hfail
    have h0 : ok i = false := by simpa using hfail 0 (by omega)
    have hres := ih (i + 1) (fun j hj => by
      have h := hfail (j + 1) (by omega)
      rwa [show i + (j + 1) = i + 1 + j by omega] at h)
    simp only [addCountFieldGo, h0, Bool.false_eq_true, if_false]
    rw [hres]
    congr 1
    omega

/-- A successful attempt after `k` failures makes `eliminate`'s retry
loop return after exactly `k + 1` attempts, given enough budget. -/
theorem eliminateRetryGo_succeeds (ok : Nat → Bool) :
    ∀ (k rem i : Nat), (∀ j, j < k → ok (i + j) = false) → ok (i + k) = true →
      k + 1 ≤ rem → eliminateRetryGo ok rem i = .ok (i + k + 1) := by
  intro k
  induction k with
  | zero =>
    intro rem i _ hsucc hrem
    obtain ⟨r, rfl⟩ : ∃ r, rem = r + 1 := ⟨rem - 1, by omega⟩
    have h : ok i = true := by simpa using hsucc
    simp [eliminateRetryGo, h]
  | succ k ih =>
    intro rem i hfail hsucc hrem
    obtain ⟨r, rfl⟩ : ∃ r, rem = r + 1 := ⟨rem - 1, by omega⟩
    have h0 : ok i = false := by simpa using hfail 0 (by omega)
    have hres := ih r (i + 1)
      (fun j hj => by
        have h := hfail (j + 1) (by omega)
        rwa [show i + (j + 1) = i + 1 + j by omega] at h)
      (by
        have h := hsucc
        rwa [show i + (k + 1) = i + 1 + k by omega] at h)
      (by omega)
    simp only [eliminateRetryGo, h0, Bool.false_eq_true, if_false,
      show ¬(r = 0) by omega, if_false]
    rw [hres]
    congr 1
    omega

/-- With a positive budget and failures throughout, `eliminate`'s retry
loop raises after exactly the budget's number of attempts. -/
theorem eliminateRetryGo_exhausts (ok : Nat → Bool) :
    ∀ (rem i : Nat), 1 ≤ rem → (∀ j, j < rem → ok (i + j) = false) →
      eliminateRetryGo ok rem i = .error (i + rem) := by
  intro rem
  induction rem with
  | zero => intro i h _; exact absurd h (by omega)
  | succ r ih =>
    intro i _ hfail
    have h0 : ok i = false := by simpa using hfail 0 (by omega)
    by_cases hr : r = 0
    · subst hr
      simp [eliminateRetryGo, h0]
    · have hres := ih (i + 1) (by omega) (fun j hj => by
        have h := hfail (j + 1) (by omega)
        rwa [show i + (j + 1) = i + 1 + j by omega] at h)
      simp only [eliminateRetryGo, h0, Bool.false_eq_true, if_false, hr]
      rw [hres]
      congr 1
      omega

/-- A successful attempt after `k` failures makes the
`_process_elimination` retry loop return the new layer name after
exactly `k + 1` attempts, given enough budget. -/
theorem processEliminationGo_succeeds (att : Nat → Except String String)
    (nm : String) :
    ∀ (k rem i : Nat), (∀ j, j < k → exceptIsOk (att (i + j)) = false) →
      att (i + k) = .ok nm → k + 1 ≤ rem →
      processEliminationGo att rem i = (some nm, i + k + 1) := by
  intro k
  induction k with
  | zero =>
    intro rem i _ hsucc hrem
    obtain ⟨r, rfl⟩ : ∃ r, rem = r + 1 := ⟨rem - 1, by omega⟩
    have h : att i = .ok nm := by simpa using hsucc
    simp [processEliminationGo, h]
  | succ k ih =>
    intro rem i hfail hsucc hrem
    obtain ⟨r, rfl⟩ : ∃ r, rem = r + 1 := ⟨rem - 1, by omega⟩
    have h0 : exceptIsOk (att i) = false := by simpa using hfail 0 (by omega)
    obtain ⟨e, he⟩ : ∃ e, att i = .error e := by
      cases hatt : att i with
      | ok nm' => rw [hatt] at h0; exact absurd h0 (by simp [exceptIsOk])
      | error e => exact ⟨e, rfl⟩
    have hres := ih r (i + 1)
      (fun j hj => by
        have h := hfail (j + 1) (by omega)
        rwa [show i + (j + 1) = i + 1 + j by omega] at h)
      (by
        have h := hsucc
        rwa [show i + (k + 1) = i + 1 + k by omega] at h)
      (by omega)
    simp only [processEliminationGo, he, show ¬(r = 0) by omega, if_false]
    rw [hres]
    simp only [Prod.mk.injEq, true_and]
    omega

/-- With failures throughout, the `_process_elimination` retry loop
returns `None` after exactly the budget's number of attempts. -/
theorem processEliminationGo_exhausts (att : Nat → Except String String) :
    ∀ (rem i : Nat), (∀ j, j < rem → exceptIsOk (att (i + j)) = false) →
      processEliminationGo att rem i = (none, i + rem) := by
  intro rem
  induction rem with
  | zero => intro i _; simp [processEliminationGo]
  | succ r ih =>
    intro i hfail
    have h0 : exceptIsOk (att i) = false := by simpa using hfail 0 (by omega)
    obtain ⟨e, he⟩ : ∃ e, att i = .error e := by
      cases hatt : att i with
      | ok nm' => rw [hatt] at h0; exact absurd h0 (by simp [exceptIsOk])
      | error e => exact ⟨e, rfl⟩
    by_cases hr : r = 0
    · subst hr
      simp [processEliminationGo, he]
    · have hres := ih (i + 1) (fun j hj => by
        have h := hfail (j + 1) (by omega)
        rwa [show i + (j + 1) = i + 1 + j by omega] at h)
      simp only [processEliminationGo, he, hr, if_false]
      rw [hres]
      simp only [Prod.mk.injEq, true_and]
      omega

/-- C8: for each bounded retry loop (the COUNT0 field add-and-populate
of `_add_count_field`, the whole-elimination retry of `eliminate`, and
the per-iteration retry of `_process_elimination`), if the underlying
operation fails exactly `k` times and then succeeds: with budget
`m ≥ k + 1` the loop succeeds after exactly `k + 1` attempts; with
`m ≤ k` it fails (raising, or returning `None` for
`_process_elimination`) after exactly `m` attempts.  (`eliminate`'s
failure case assumes a positive budget: with `m = 0` its `while` guard
is immediately false and the method returns without attempting, which
is how every caller in the code, with budgets 3 to 5, never behaves.) -/
theorem c8_retry_bounds (ok : Nat → Bool) (att : Nat → Except String String)
    (k m : Nat) (nm : String)
    (hfail : ∀ i, i < k → ok i = false)
    (hattFail : ∀ i, i < k → exceptIsOk (att i) = false)
    (hsucc : ok k = true) (hattSucc : att k = Except.ok nm) :
    (k + 1 ≤ m →
      addCountField ok m = Except.ok (k + 1) ∧
      eliminateRetry ok m = Except.ok (k + 1) ∧
      processElimination att m = (some nm, k + 1)) ∧
    (m ≤ k →
      addCountField ok m = Except.error m ∧
      (1 ≤ m → eliminateRetry ok m = Except.error m) ∧
      processElimination att m = (none, m)) := by
  constructor
  · intro hm
    refine ⟨?_, ?_, ?_⟩
    · simpa [addCountField] using addCountFieldGo_succeeds ok k m 0
        (fun j hj => by simpa using hfail j hj) (by simpa using hsucc) hm
    · simpa [eliminateRetry] using eliminateRetryGo_succeeds ok k m 0
        (fun j hj => by simpa using hfail j hj) (by simpa using hsucc) hm
    · simpa [processElimination] using processEliminationGo_succeeds att nm k m 0
        (fun j hj => by simpa using hattFail j hj) (by simpa using hattSucc) hm
  · intro hm
    refine ⟨?_, ?_, ?_⟩
    · simpa [addCountField] using addCountFieldGo_exhausts ok m 0
        (fun j hj => by simpa using hfail j (by omega))
    · intro h1
      simpa [eliminateRetry] using eliminateRetryGo_exhausts ok m 0 h1
        (fun j hj => by simpa using hfail j (by omega))
    · simpa [processElimination] using processEliminationGo_exhausts att m 0
        (fun j hj => by simpa using hattFail j (by omega))

/-- Witness for C8 at `k = 2, m = 5` (success after three attempts) and
`k = 7, m = 5` (exhaustion after five attempts). -/
theorem c8_retry_bounds_witness :
    (addCountField (fun i => decide (2 ≤ i)) 5 = Except.ok 3 ∧
     eliminateRetry (fun i => decide (2 ≤ i)) 5 = Except.ok 3 ∧
     processElimination
       (fun i => if 2 ≤ i then Except.ok "L" else Except.error "e") 5 =
       (some "L", 3)) ∧
    (addCountField (fun i => decide (7 ≤ i)) 5 = Except.error 5 ∧
     eliminateRetry (fun i => decide (7 ≤ i)) 5 = Except.error 5 ∧
     processElimination
       (fun i => if 7 ≤ i then Except.ok "L" else Except.error "e") 5 =
       (none, 5)) := by
  constructor
  · exact (c8_retry_bounds (fun i => decide (2 ≤ i))
      (fun i => if 2 ≤ i then Except.ok "L" else Except.error "e")
      2 5 "L" (by decide) (by decide) (by decide) rfl).1 (by omega)
  · have h := (c8_retry_bounds (fun i => decide (7 ≤ i))
      (fun i => if 7 ≤ i then Except.ok "L" else Except.error "e")
      7 5 "L" (by decide) (by decide) (by decide) rfl).2 (by omega)
    exact ⟨h.1, h.2.1 (by omega), h.2.2⟩

/-- The progress lines the drain loop emits are consecutive tallies
continuing from the completions already counted. -/
theorem drainGo_filterMap_progress (total : Nat) :
    ∀ (rest : List (String × Except String String)) (c : Nat),
      (drainGo total c rest).filterMap progressOf =
        (List.range' (c + 1) rest.length).map fun j => (j, total) := by
  intro rest
  induction rest with
  | nil => intro c; simp [drainGo]
  | cons hd rest ih =>
    intro c
    obtain ⟨area, r⟩ := hd
    have hrep : progressOf (match r with
        | .ok msg => SchedulerEvent.resultLine msg
        | .error e => SchedulerEvent.failureLine area e) = none := by
      cases r <;> rfl
    simp only [drainGo, List.filterMap_cons, hrep, ih (c + 1),
      List.length_cons, List.range'_succ, List.map_cons]
    rfl

/-- Every outcome in the drained list is reported by its own line,
regardless of other outcomes. -/
theorem drainGo_reports (total : Nat) :
    ∀ (rest : List (String × Except String String)) (c : Nat),
      (∀ area e, (area, Except.error e) ∈ rest →
        SchedulerEvent.failureLine area e ∈ drainGo total c rest) ∧
      (∀ area msg, (area, Except.ok msg) ∈ rest →
        SchedulerEvent.resultLine msg ∈ drainGo total c rest) := by
  intro rest
  induction rest with
  | nil => intro c; simp
  | cons hd rest ih =>
    intro c
    obtain ⟨a, r⟩ := hd
    constructor
    · intro area e hmem
      rcases List.mem_cons.mp hmem with heq | htl
      · injection heq with h1 h2
        subst h1
        subst h2
        simp [drainGo]
      · simp only [drainGo]
        exact List.mem_cons_of_mem _ (List.mem_cons_of_mem _
          ((ih (c + 1)).1 area e htl))
    · intro area msg hmem
      rcases List.mem_cons.mp hmem with heq | htl
      · injection heq with h1 h2
        subst h1
        subst h2
        simp [drainGo]
      · simp only [drainGo]
        exact List.mem_cons_of_mem _ (List.mem_cons_of_mem _
          ((ih (c + 1)).2 area msg htl))

/-- C7: for every set of submitted partition outcomes, drained in any
completion order, the scheduler reports each completion with a running
tally: the progress lines are exactly `1 of n` through `n of n` where
`n` is the number of partitions (so the final tally equals the total
even when some partitions fail), every failing partition's failure line
appears, and every successful partition's result line appears — an
exception from one task never aborts collection of the others. -/
theorem c7_fault_isolation (outcomes : List (String × Except String String)) :
    ((processAreas outcomes).filterMap progressOf =
      (List.range' 1 outcomes.length).map fun j => (j, outcomes.length)) ∧
    (∀ area e, (area, Except.error e) ∈ outcomes →
      SchedulerEvent.failureLine area e ∈ processAreas outcomes) ∧
    (∀ area msg, (area, Except.ok msg) ∈ outcomes →
      SchedulerEvent.resultLine msg ∈ processAreas outcomes) := by
  refine ⟨?_, (drainGo_reports outcomes.length outcomes 0).1,
    (drainGo_reports outcomes.length outcomes 0).2⟩
  simpa [processAreas] using
    drainGo_filterMap_progress outcomes.length outcomes 0

/-- Witness for C7: five partitions of which the third always fails:
the tally reaches 5 of 5, partition p3 reports failure, and partitions
p1, p2, p4, p5 report success. -/
theorem c7_fault_isolation_witness :
    ((processAreas [("p1", Except.ok "Finished p1"),
        ("p2", Except.ok "Finished p2"), ("p3", Except.error "boom"),
        ("p4", Except.ok "Finished p4"),
        ("p5", Except.ok "Finished p5")]).filterMap progressOf =
      [(1, 5), (2, 5), (3, 5), (4, 5), (5, 5)]) ∧
    SchedulerEvent.failureLine "p3" "boom" ∈
      processAreas [("p1", Except.ok "Finished p1"),
        ("p2", Except.ok "Finished p2"), ("p3", Except.error "boom"),
        ("p4", Except.ok "Finished p4"), ("p5", Except.ok "Finished p5")] ∧
    SchedulerEvent.resultLine "Finished p1" ∈
      processAreas [("p1", Except.ok "Finished p1"),
        ("p2", Except.ok "Finished p2"), ("p3", Except.error "boom"),
        ("p4", Except.ok "Finished p4"), ("p5", Except.ok "Finished p5")] ∧
    SchedulerEvent.resultLine "Finished p4" ∈
      processAreas [("p1", Except.ok "Finished p1"),
        ("p2", Except.ok "Finished p2"), ("p3", Except.error "boom"),
        ("p4", Except.ok "Finished p4"), ("p5", Except.ok "Finished p5")] := by
  have h := c7_fault_isolation [("p1", Except.ok "Finished p1"),
    ("p2", Except.ok "Finished p2"), ("p3", Except.error "boom"),
    ("p4", Except.ok "Finished p4"), ("p5", Except.ok "Finished p5")]
  refine ⟨by simpa using h.1, h.2.1 "p3" "boom" (by simp),
    h.2.2 "p1" "Finished p1" (by simp), h.2.2 "p4" "Finished p4" (by simp)⟩

/-- Counting a key never empties the table. -/
theorem bumpCount_ne_nil (counts : List (String × Nat)) (key : String) :
    bumpCount counts key ≠ [] := by
  cases counts with
  | nil => simp [bumpCount]
  | cons hd tl =>
    obtain ⟨k, n⟩ := hd
    by_cases h : k = key <;> simp [bumpCount, h]

/-- Folding counts from a nonempty table stays nonempty. -/
theorem foldl_bumpCount_ne_nil (fcs : List String) :
    ∀ acc : List (String × Nat), acc ≠ [] →
      fcs.foldl (fun counts fc => bumpCount counts (subAreaKey fc)) acc ≠ [] := by
  induction fcs with
  | nil => intro acc h; simpa
  | cons fc rest ih =>
    intro acc _
    rw [List.foldl_cons]
    exact ih _ (bumpCount_ne_nil acc (subAreaKey fc))

/-- A nonempty scratch listing yields a nonempty count table. -/
theorem buildAreaCounts_ne_nil (fcs : List String) (h : fcs ≠ []) :
    buildAreaCounts fcs ≠ [] := by
  cases fcs with
  | nil => exact absurd rfl h
  | cons fc rest =>
    unfold buildAreaCounts
    rw [List.foldl_cons]
    exact foldl_bumpCount_ne_nil rest _ (bumpCount_ne_nil [] (subAreaKey fc))

/-- The fold inside `minByCount` yields a count below the start element
and below every element folded over. -/
theorem foldl_minBy_le (xs : List (String × Nat)) :
    ∀ x : String × Nat,
      (xs.foldl (fun best y => if y.2 < best.2 then y else best) x).2 ≤ x.2 ∧
      ∀ q ∈ xs,
        (xs.foldl (fun best y => if y.2 < best.2 then y else best) x).2 ≤ q.2 := by
  induction xs with
  | nil => intro x; simp
  | cons y ys ih =>
    intro x
    rw [List.foldl_cons]
    obtain ⟨h1, h2⟩ := ih (if y.2 < x.2 then y else x)
    refine ⟨le_trans h1 (by split <;> omega), ?_⟩
    intro q hq
    rcases List.mem_cons.mp hq with rfl | hq'
    · exact le_trans h1 (by split <;> omega)
    · exact h2 q hq'

/-- `min(area_counts.items(), key=lambda x: x[1])` chooses a pair whose
count is minimal over the table. -/
theorem minByCount_le (l : List (String × Nat)) (x : String × Nat)
    (h : minByCount l = some x) : ∀ q ∈ l, x.2 ≤ q.2 := by
  cases l with
  | nil => simp [minByCount] at h
  | cons y ys =>
    simp only [minByCount, Option.some.injEq] at h
    intro q hq
    rcases List.mem_cons.mp hq with heq | hq'
    · rw [← h, heq]
      exact (foldl_minBy_le ys y).1
    · rw [← h]
      exact (foldl_minBy_le ys y).2 q hq'

/-- C6: whenever an elimination attempt fails with retries remaining and
the scratch workspace holds partial outputs, the pipeline issues a
geometry-repair call before the next attempt, targeting the `_In` input
feature of the sub-area whose derived-layer count in the scratch
workspace is minimal among sibling sub-areas; the next attempt then
runs against the same initial input geodatabase. -/
theorem c6_repair_targets_min_subarea (ok : Nat → Bool)
    (scratchList : Nat → List String) (inGdb : String) (r i : Nat)
    (hfail : ok i = false) (hne : scratchList i ≠ []) :
    ∃ areaName count,
      minByCount (buildAreaCounts (scratchList i)) = some (areaName, count) ∧
      (∀ q ∈ buildAreaCounts (scratchList i), count ≤ q.2) ∧
      repairTopology inGdb (scratchList i) =
        some (inGdb ++ "/" ++ areaName ++ "_In") ∧
      eliminatePolygonsGo ok scratchList inGdb (r + 2) i =
        (PipelineEvent.attempt i inGdb ::
          PipelineEvent.repairCall (inGdb ++ "/" ++ areaName ++ "_In") ::
          (eliminatePolygonsGo ok scratchList inGdb (r + 1) (i + 1)).1,
         (eliminatePolygonsGo ok scratchList inGdb (r + 1) (i + 1)).2) ∧
      (eliminatePolygonsGo ok scratchList inGdb (r + 1) (i + 1)).1.head? =
        some (PipelineEvent.attempt (i + 1) inGdb) := by
  obtain ⟨p, hmin⟩ :
      ∃ p, minByCount (buildAreaCounts (scratchList i)) = some p := by
    cases hc : buildAreaCounts (scratchList i) with
    | nil => exact absurd hc (buildAreaCounts_ne_nil _ hne)
    | cons y ys => exact ⟨_, rfl⟩
  obtain ⟨A, c⟩ := p
  have hrep : repairTopology inGdb (scratchList i) =
      some (inGdb ++ "/" ++ A ++ "_In") := by
    simp [repairTopology, hne, hmin]
  refine ⟨A, c, hmin, minByCount_le _ _ hmin, hrep, ?_, ?_⟩
  · simp only [eliminatePolygonsGo, hfail, Bool.false_eq_true, if_false,
      show ¬(r + 1 = 0) by omega, hrep]
    rfl
  · show (eliminatePolygonsGo ok scratchList inGdb (r + 1) (i + 1)).1.head? = _
    by_cases h1 : ok (i + 1) <;> by_cases h2 : r = 0 <;>
      simp [eliminatePolygonsGo, h1, h2]

/-- Witness for C6: the first attempt fails with scratch listing
`A_1_1000_1, A_1_1000_2, B_2_1000_1`; sub-area `B_2` has the fewest
derived layers, the repair targets `in/B_2_In`, and the second attempt
runs against the same input geodatabase and succeeds. -/
theorem c6_repair_targets_min_subarea_witness :
    repairTopology "in" ["A_1_1000_1", "A_1_1000_2", "B_2_1000_1"] =
      some "in/B_2_In" ∧
    eliminatePolygonsGo (fun j => decide (1 ≤ j))
        (fun _ => ["A_1_1000_1", "A_1_1000_2", "B_2_1000_1"]) "in" 2 0 =
      ([PipelineEvent.attempt 0 "in", PipelineEvent.repairCall "in/B_2_In",
        PipelineEvent.attempt 1 "in"], Except.ok ()) := by
  obtain ⟨A, c, hmin, _, hrep, hgo, _⟩ :=
    c6_repair_targets_min_subarea (fun j => decide (1 ≤ j))
      (fun _ => ["A_1_1000_1", "A_1_1000_2", "B_2_1000_1"]) "in" 0 0
      (by decide) (by simp)
  have hmin2 : minByCount
      (buildAreaCounts ["A_1_1000_1", "A_1_1000_2", "B_2_1000_1"]) =
      some ("B_2", 1) := by decide
  rw [hmin2] at hmin
  injection hmin with hAc
  have hA : A = "B_2" := (congrArg Prod.fst hAc).symm
  subst hA
  have htail : eliminatePolygonsGo (fun j => decide (1 ≤ j))
      (fun _ => ["A_1_1000_1", "A_1_1000_2", "B_2_1000_1"]) "in" 1 1 =
      ([PipelineEvent.attempt 1 "in"], Except.ok ()) := rfl
  rw [htail] at hgo
  exact ⟨hrep, by rw [hgo]; rfl⟩

/-- C3 counterexample: with every attempt at threshold 1000 failing (a
primitive `ProcessingError` on each of the three budgeted attempts),
`_process_elimination` returns `None`, yet `_process_layers` completes
normally (`Except.ok`), logging a skip warning for threshold 1000 and
continuing to threshold 1900 — no processing error is surfaced to the
engine's caller for the exhausted iteration. -/
theorem c3_counterexample :
    processElimination
      ((fun size _ => if size = 1000
          then (Except.error "ArcPy operation failed: eliminate_polygons" :
            Except String String)
          else Except.ok "L_1900_1_Layer") 1000) 3 = (none, 3) ∧
    processLayers (fun size _ => if size = 1000
        then (Except.error "ArcPy operation failed: eliminate_polygons" :
          Except String String)
        else Except.ok "L_1900_1_Layer") 3 ["L"] [1000, 1900] =
      Except.ok [("L_1900_1_Layer",
        [LayerEvent.sizeStart 1000, LayerEvent.skipWarning 1000,
         LayerEvent.sizeStart 1900])] ∧
    exceptIsOk (processLayers (fun size _ => if size = 1000
        then (Except.error "ArcPy operation failed: eliminate_polygons" :
          Except String String)
        else Except.ok "L_1900_1_Layer") 3 ["L"] [1000, 1900]) = true :=
  ⟨rfl, rfl, rfl⟩

/-- C3 amended: a primitive failure inside an attempt surfaces as a
processing error to the per-iteration retry loop, and on exhaustion
`_process_elimination` signals failure to `_process_layers` by
returning `None` after exactly the budgeted number of attempts;
`_process_layers` then logs a warning naming the threshold, keeps the
current layer unchanged, and continues with the next threshold — the
exhausted failure is never raised to the engine's caller, which sees a
normal completion whenever at least one feature layer exists. -/
theorem c3_iteration_failure_handling (att : Nat → Nat → Except String String)
    (m size : Nat) (st : String × List LayerEvent)
    (hfails : ∀ i, i < m → exceptIsOk (att size i) = false) :
    processElimination (att size) m = (none, m) ∧
    processSizeStep att m st size =
      (st.1, st.2 ++ [LayerEvent.sizeStart size, LayerEvent.skipWarning size]) ∧
    (∀ (featureLayers : List String) (sizes : List Nat), featureLayers ≠ [] →
      exceptIsOk (processLayers att m featureLayers sizes) = true) := by
  have hex : processElimination (att size) m = (none, m) := by
    simpa [processElimination] using processEliminationGo_exhausts (att size) m 0
      (fun j hj => by simpa using hfails j (by omega))
  refine ⟨hex, ?_, ?_⟩
  · simp [processSizeStep, hex]
  · intro featureLayers sizes hne
    simp [processLayers, exceptIsOk, hne]

/-- Witness for C3's amended theorem: a concrete oracle failing all
three budgeted attempts at threshold 1000. -/
theorem c3_iteration_failure_handling_witness :
    processElimination
      ((fun _ i => if 99 ≤ i then Except.ok "nm" else Except.error "boom")
        1000) 3 = (none, 3) ∧
    processSizeStep
      (fun _ i => if 99 ≤ i then Except.ok "nm" else Except.error "boom")
      3 ("L", []) 1000 =
      ("L", [LayerEvent.sizeStart 1000, LayerEvent.skipWarning 1000]) ∧
    exceptIsOk (processLayers
      (fun _ i => if 99 ≤ i then Except.ok "nm" else Except.error "boom")
      3 ["L"] [1000, 1900]) = true := by
  have h := c3_iteration_failure_handling
    (fun _ i => if 99 ≤ i then Except.ok "nm" else Except.error "boom")
    3 1000 ("L", []) (by decide)
  exact ⟨h.1, by simpa using h.2.1, h.2.2 ["L"] [1000, 1900] (by simp)⟩

/-- C1: within one threshold pass of `_eliminate_iteration`, the
selection is exactly the polygons whose area is at most the threshold
(inclusive); when the selected count is zero, or a previous count exists
that the new count fails to strictly undercut, the loop stops and
returns the current layer unchanged; otherwise it eliminates the
selection into a new layer, records the count as the new previous
count, and repeats at the same threshold. -/
theorem c1_elimination_pass (elim : ElimOracle) (shapeArea : Nat)
    (layer : List Polygon) (iteration fuel : Nat) (prev : Option Nat) :
    (∀ p : Polygon,
        p ∈ selectLayerByAttribute layer (selectionClause shapeArea) ↔
          p ∈ layer ∧ p.shapeArea ≤ shapeArea) ∧
    (getCount (selectLayerByAttribute layer (selectionClause shapeArea)) = 0 →
      eliminateIterationGo elim shapeArea (fuel + 1) iteration prev layer =
        some layer) ∧
    (∀ pc, prev = some pc →
        pc ≤ getCount (selectLayerByAttribute layer (selectionClause shapeArea)) →
      eliminateIterationGo elim shapeArea (fuel + 1) iteration prev layer =
        some layer) ∧
    (getCount (selectLayerByAttribute layer (selectionClause shapeArea)) ≠ 0 →
      (∀ pc, prev = some pc →
        getCount (selectLayerByAttribute layer (selectionClause shapeArea)) < pc) →
      eliminateIterationGo elim shapeArea (fuel + 1) iteration prev layer =
        eliminateIterationGo elim shapeArea fuel (iteration + 1)
          (some (getCount (selectLayerByAttribute layer (selectionClause shapeArea))))
          (elim (iteration + 1) layer
            (selectLayerByAttribute layer (selectionClause shapeArea)))) := by
  refine ⟨?_, ?_, ?_, ?_⟩
  · intro p
    simp [selectLayerByAttribute, selectionClause, evalWhere, Polygon.attr,
      List.mem_filter]
  · intro h0
    have hb : stallBreak
        (getCount (selectLayerByAttribute layer (selectionClause shapeArea)))
        prev = true := by
      simp [stallBreak, h0]
    simp [eliminateIterationGo, hb]
  · intro pc hpc hle
    have hb : stallBreak
        (getCount (selectLayerByAttribute layer (selectionClause shapeArea)))
        prev = true := by
      simp [stallBreak, hpc, hle]
    simp [eliminateIterationGo, hb]
  · intro h0 hlt
    have hb : stallBreak
        (getCount (selectLayerByAttribute layer (selectionClause shapeArea)))
        prev = false := by
      cases prev with
      | none => simp [stallBreak, h0]
      | some pc =>
        have := hlt pc rfl
        simp [stallBreak, h0]
        omega
    simp [eliminateIterationGo, hb]

/-- Witness for C1 at a two-polygon layer with threshold 1000 and an
adversarial collaborator returning a single large polygon: the pass
selects exactly the 500 m2 polygon and recurses with previous count 1. -/
theorem c1_elimination_pass_witness :
    (∀ p : Polygon,
        p ∈ selectLayerByAttribute [⟨500⟩, ⟨4000⟩] (selectionClause 1000) ↔
          p ∈ [(⟨500⟩ : Polygon), ⟨4000⟩] ∧ p.shapeArea ≤ 1000) ∧
    eliminateIterationGo (fun _ _ _ => [⟨5000⟩]) 1000 3 0 none
        [⟨500⟩, ⟨4000⟩] =
      eliminateIterationGo (fun _ _ _ => [⟨5000⟩]) 1000 2 1 (some 1)
        [⟨5000⟩] := by
  have h := c1_elimination_pass (fun _ _ _ => [⟨5000⟩]) 1000
    [⟨500⟩, ⟨4000⟩] 0 2 none
  refine ⟨h.1, ?_⟩
  have h4 := h.2.2.2 (by decide) (fun pc hpc => by cases hpc)
  simpa using h4

/-- With `previous_poly_count = p`, fuel `p + 1` suffices for the
elimination loop under every collaborator: each continuing iteration's
selected count strictly decreases below `p`. -/
theorem eliminateIterationGo_isSome (elim : ElimOracle) (shapeArea : Nat) :
    ∀ (p fuel iteration : Nat) (layer : List Polygon), p + 1 ≤ fuel →
      (eliminateIterationGo elim shapeArea fuel iteration (some p)
        layer).isSome = true := by
  intro p
  induction p using Nat.strong_induction_on with
  | _ p ih =>
    intro fuel iteration layer hfuel
    obtain ⟨f, rfl⟩ : ∃ f, fuel = f + 1 := ⟨fuel - 1, by omega⟩
    by_cases hb : stallBreak
        (getCount (selectLayerByAttribute layer (selectionClause shapeArea)))
        (some p) = true
    · simp [eliminateIterationGo, hb]
    · have hb2 : stallBreak
          (getCount (selectLayerByAttribute layer (selectionClause shapeArea)))
          (some p) = false := by
        simpa using hb
      have hcond : ¬(getCount (selectLayerByAttribute layer
          (selectionClause shapeArea)) = 0) ∧
          ¬(p ≤ getCount (selectLayerByAttribute layer
            (selectionClause shapeArea))) := by
        simpa [stallBreak, not_or] using hb
      simp only [eliminateIterationGo, hb2, Bool.false_eq_true, if_false]
      exact ih _ (by omega) f (iteration + 1) _ (by omega)

/-- Starting the loop with infinite previous count, fuel
`initial selected count + 2` suffices under every collaborator. -/
theorem eliminateIterationGo_isSome_none (elim : ElimOracle) (shapeArea : Nat)
    (layer : List Polygon) (iteration : Nat) :
    ∀ fuel,
      getCount (selectLayerByAttribute layer (selectionClause shapeArea)) + 2 ≤
        fuel →
      (eliminateIterationGo elim shapeArea fuel iteration none layer).isSome =
        true := by
  intro fuel hfuel
  obtain ⟨f, rfl⟩ : ∃ f, fuel = f + 1 := ⟨fuel - 1, by omega⟩
  by_cases hb : stallBreak
      (getCount (selectLayerByAttribute layer (selectionClause shapeArea)))
      none = true
  · simp [eliminateIterationGo, hb]
  · have hb2 : stallBreak
        (getCount (selectLayerByAttribute layer (selectionClause shapeArea)))
        none = false := by
      simpa using hb
    simp only [eliminateIterationGo, hb2, Bool.false_eq_true, if_false]
    exact eliminateIterationGo_isSome elim shapeArea _ f (iteration + 1) _
      (by omega)

/-- C2: for every collaborator behaviour — including adversarial merges
that fail to reduce the selected count — and every layer and threshold,
the `_eliminate_iteration` loop terminates: continuing requires the
selected count (a non-negative integer) to strictly decrease, so the
loop completes within `initial selected count + 2` passes. -/
theorem c2_termination (elim : ElimOracle) (shapeArea : Nat)
    (layer : List Polygon) :
    (eliminateIteration elim shapeArea layer).isSome = true := by
  unfold eliminateIteration
  exact eliminateIterationGo_isSome_none elim shapeArea layer 0 _ (by omega)

end CSB

